import Mathlib

/-!
Verification of the google-slides-mcp tool-execution pipeline.

This file gives a shallow embedding of the repository's core logic:

* the centralized tool executor `executeTool` (src/utils/toolExecutor.ts),
* the Zod argument schemas (src/schemas.ts),
* the tool implementation methods of the `GoogleSlidesServer` class
  (`createPresentation`, `getPresentation`, `batchUpdatePresentation`,
  `getPage`, `summarizePresentation`),
* the Google-API error normalizer `handleGoogleApiError`
  (src/utils/errorHandler.ts; the implementation file is not in the tree,
  so it is modelled from the specification and from the repository's own
  test suite, see its doc comment).

JavaScript untyped values are modelled by an inductive `Json` type; the
absent / `undefined` argument sentinel is `Option.none`; thrown values are
modelled by explicit error sums threaded through `Except`.
-/

/-- A JSON-like structured value, as received over the protocol and as
returned by the remote Google Slides service. Objects are association
lists in insertion order. -/
inductive Json where
| null : Json
| bool (b : Bool) : Json
| num (n : Int) : Json
| str (s : String) : Json
| arr (xs : List Json) : Json
| obj (kvs : List (String × Json)) : Json

/-- The name Zod reports for the runtime type of a value
("Expected string, received number" style messages). -/
def typeName : Json → String
| .null => "null"
| .bool _ => "boolean"
| .num _ => "number"
| .str _ => "string"
| .arr _ => "array"
| .obj _ => "object"

/-- JavaScript property lookup on an object's association list. -/
def lookupField : List (String × Json) → String → Option Json
| [], _ => none
| (k, v) :: rest, key => if k = key then some v else lookupField rest key

/-- The MCP protocol error codes used on the wire
(from @modelcontextprotocol/sdk `ErrorCode`). -/
inductive ErrorCode where
| parseError : ErrorCode
| invalidRequest : ErrorCode
| methodNotFound : ErrorCode
| invalidParams : ErrorCode
| internalError : ErrorCode
deriving DecidableEq

/-- The fixed error-code enumeration. -/
def errorCodeEnum : List ErrorCode :=
  [.parseError, .invalidRequest, .methodNotFound, .invalidParams, .internalError]

/-- The text payload of a content block. Tool success responses serialize a
JSON value with `JSON.stringify(v, null, 2)`; since no claim depends on the
rendered characters, the serialization is kept abstract as the `jsonOf`
constructor, while plain error messages are `plain` strings. -/
inductive TextVal where
| plain (s : String) : TextVal
| jsonOf (j : Json) : TextVal

/-- One block of a response envelope's `content` array; every block the
server produces has `type: 'text'`. -/
inductive ContentBlock where
| text (v : TextVal) : ContentBlock

/-- The uniform result envelope: `{ content, isError?, errorCode? }`.
`Option.none` models an absent field. -/
structure Envelope where
  content : List ContentBlock
  isError : Option Bool
  errorCode : Option ErrorCode

/-- A successful tool envelope `{ content: [{ type: 'text', text: ... }] }`:
the `isError` and `errorCode` fields are absent. -/
def mkSuccess (v : TextVal) : Envelope :=
  { content := [.text v], isError := none, errorCode := none }

/-- One Zod validation issue: the path to the violated field and a
human-readable message. -/
structure ZodIssue where
  path : List String
  message : String

/-- A Zod validation error is its list of issues. -/
abbrev ZodError := List ZodIssue

/-- `Array.prototype.join(sep)`. -/
def joinSep (sep : String) : List String → String
| [] => ""
| [x] => x
| x :: y :: xs => x ++ sep ++ joinSep sep (y :: xs)

/-- Formats one Zod issue as `<path>: <reason>`
(`e.path.join('.') + ': ' + e.message`). -/
def fmtIssue (i : ZodIssue) : String :=
  joinSep "." i.path ++ ": " ++ i.message

/-- A value thrown by a tool function. The repository's tool functions
throw `McpError` (a structured code/message pair); the executor's tests
additionally exercise plain `Error` instances, raw strings, and
non-exception values (null, numbers, plain objects), which all share one
fallback and are modelled by `otherVal` with a tag. -/
inductive ToolError where
| mcpE (code : ErrorCode) (msg : String) : ToolError
| jsError (msg : String) : ToolError
| strVal (s : String) : ToolError
| otherVal (tag : Nat) : ToolError

/-- A value thrown inside `executeTool`'s try block: either the
`z.ZodError` raised by `schema.parse`, or a value thrown by the tool
function (including the `McpError` thrown for missing arguments). -/
inductive Thrown where
| zodErr (issues : ZodError) : Thrown
| toolE (e : ToolError) : Thrown

/-- `extractErrorMessage` from src/utils/toolExecutor.ts: an `Error`
instance yields its message (`McpError` extends `Error`), a string is used
verbatim, anything else yields "Unknown error". -/
def extractErrorMessage : ToolError → String
| .mcpE _ m => m
| .jsError m => m
| .strVal s => s
| .otherVal _ => "Unknown error"

/-- The `catch` clause of `executeTool`: a `z.ZodError` becomes an
InvalidParams envelope listing every violation, an `McpError` passes its
code and message through, and any other thrown value is wrapped as an
InternalError with a best-effort message. -/
def catchHandler (toolName : String) : Thrown → Envelope
| .zodErr ze =>
  { content := [.text (.plain ("Invalid arguments for tool \"" ++ toolName ++ "\": " ++
      joinSep "; " (ze.map fmtIssue)))],
    isError := some true,
    errorCode := some .invalidParams }
| .toolE (.mcpE c m) =>
  { content := [.text (.plain m)], isError := some true, errorCode := some c }
| .toolE e =>
  { content := [.text (.plain ("Failed to execute tool \"" ++ toolName ++ "\": " ++
      extractErrorMessage e))],
    isError := some true,
    errorCode := some .internalError }

/-- The `try` block of `executeTool`: throw `McpError(InvalidParams, ...)`
when the raw arguments are the undefined sentinel, then `schema.parse`
(whose failure throws a `ZodError`), then the awaited tool function (whose
failure throws a `ToolError`). -/
def tryBody {T : Type} (toolName : String) (args : Option Json)
    (schema : Json → Except ZodError T)
    (toolFn : T → Except ToolError Envelope) : Except Thrown Envelope :=
  match args with
  | none => .error (.toolE (.mcpE .invalidParams
      ("Missing arguments for tool \"" ++ toolName ++ "\".")))
  | some a =>
    match schema a with
    | .error ze => .error (.zodErr ze)
    | .ok parsed =>
      match toolFn parsed with
      | .error e => .error (.toolE e)
      | .ok env => .ok env

/-- `executeTool` from src/utils/toolExecutor.ts: the try block with every
thrown value recovered by the catch clause. -/
def executeTool {T : Type} (toolName : String) (args : Option Json)
    (schema : Json → Except ZodError T)
    (toolFn : T → Except ToolError Envelope) : Envelope :=
  match tryBody toolName args schema toolFn with
  | .ok env => env
  | .error t => catchHandler toolName t

/-- `executeTool` as observed by its caller: an `Except.error` here would
be an exception escaping to the protocol front-end. The catch clause
handles every thrown value, so the error branch is never produced. -/
def executeToolRaw {T : Type} (toolName : String) (args : Option Json)
    (schema : Json → Except ZodError T)
    (toolFn : T → Except ToolError Envelope) : Except Thrown Envelope :=
  match tryBody toolName args schema toolFn with
  | .ok env => .ok env
  | .error t => .ok (catchHandler toolName t)

/-- Substring containment as a proposition: `sub` occurs contiguously in
`m`. -/
def strHas (m sub : String) : Prop :=
  ∃ p q : List Char, m.data = p ++ sub.data ++ q

/-- Boolean test: is `pre` a prefix of `l`? -/
def listPrefixB : List Char → List Char → Bool
| [], _ => true
| _ :: _, [] => false
| a :: as, b :: bs => a == b && listPrefixB as bs

/-- Boolean test: does `sub` occur contiguously in `l`? -/
def listHasB (sub : List Char) : List Char → Bool
| [] => listPrefixB sub []
| a :: t => listPrefixB sub (a :: t) || listHasB sub t

/-- Boolean substring containment on strings. -/
def strHasB (m sub : String) : Bool :=
  listHasB sub.data m.data


/-! ## Argument schemas (src/schemas.ts)

Each tool schema is a `z.object({...})`: required string fields use
`.min(1, customMessage)`, optional fields use `.optional()`, and the
batch-update `requests` field is `z.array(z.any()).min(1, customMessage)`.
Zod reports one issue per violated field (a missing field yields
"Required"), and by default strips unknown object keys from the parsed
value. -/

/-- The field validators appearing in the five tool schemas. -/
inductive FieldType where
| strMin1 (msg : String) : FieldType
| strOpt : FieldType
| boolOpt : FieldType
| arrMin1 (msg : String) : FieldType
| anyOpt : FieldType

/-- Validates one declared field against the (possibly absent) property
value, yielding either the value to keep in the parsed object (`none` when
an optional field is absent) or the Zod issue message. -/
def parseField : FieldType → Option Json → Except String (Option Json)
| .strMin1 _, none => .error "Required"
| .strMin1 msg, some (.str s) =>
  if s.length ≥ 1 then .ok (some (.str s)) else .error msg
| .strMin1 _, some v => .error ("Expected string, received " ++ typeName v)
| .strOpt, none => .ok none
| .strOpt, some (.str s) => .ok (some (.str s))
| .strOpt, some v => .error ("Expected string, received " ++ typeName v)
| .boolOpt, none => .ok none
| .boolOpt, some (.bool b) => .ok (some (.bool b))
| .boolOpt, some v => .error ("Expected boolean, received " ++ typeName v)
| .arrMin1 _, none => .error "Required"
| .arrMin1 msg, some (.arr xs) =>
  if xs.length ≥ 1 then .ok (some (.arr xs)) else .error msg
| .arrMin1 _, some v => .error ("Expected array, received " ++ typeName v)
| .anyOpt, none => .ok none
| .anyOpt, some v => .ok (some v)

/-- The issues collected over the declared fields of an object input, in
shape order: one issue per violated field. -/
def zodIssues (fields : List (String × FieldType)) (kvs : List (String × Json)) : ZodError :=
  fields.flatMap (fun nf =>
    match parseField nf.2 (lookupField kvs nf.1) with
    | .error m => [ZodIssue.mk [nf.1] m]
    | .ok _ => [])

/-- The parsed object rebuilt from the declared fields only — unknown keys
are stripped, and absent optional fields stay absent. -/
def zodStrip (fields : List (String × FieldType)) (kvs : List (String × Json)) : List (String × Json) :=
  fields.flatMap (fun nf =>
    match parseField nf.2 (lookupField kvs nf.1) with
    | .ok (some v) => [(nf.1, v)]
    | _ => [])

/-- `z.object(shape).parse`: a non-object input is rejected outright;
otherwise the declared fields are checked and, when no issue arises, the
parsed object is rebuilt from them. -/
def zodObjectParse (fields : List (String × FieldType)) : Json → Except ZodError Json
| .obj kvs =>
  match zodIssues fields kvs with
  | [] => .ok (.obj (zodStrip fields kvs))
  | issues => .error issues
| v => .error [ZodIssue.mk [] ("Expected object, received " ++ typeName v)]

def CreatePresentationArgsSchema : Json → Except ZodError Json :=
  zodObjectParse [("title", .strMin1 "\"title\" (string) is required.")]

def GetPresentationArgsSchema : Json → Except ZodError Json :=
  zodObjectParse [("presentationId", .strMin1 "\"presentationId\" (string) is required."),
    ("fields", .strOpt)]

def BatchUpdatePresentationArgsSchema : Json → Except ZodError Json :=
  zodObjectParse [("presentationId", .strMin1 "\"presentationId\" (string) is required."),
    ("requests", .arrMin1 "\"requests\" (array) is required."),
    ("writeControl", .anyOpt)]

def GetPageArgsSchema : Json → Except ZodError Json :=
  zodObjectParse [("presentationId", .strMin1 "\"presentationId\" (string) is required."),
    ("pageObjectId", .strMin1 "\"pageObjectId\" (string) is required.")]

def SummarizePresentationArgsSchema : Json → Except ZodError Json :=
  zodObjectParse [("presentationId", .strMin1 "\"presentationId\" (string) is required."),
    ("include_notes", .boolOpt)]

/-! ## The Google Slides document tree (consumed by summarize) -/

/-- `{ textRun?: { content?: string } }`. -/
structure TextRun where
  content : Option String

structure TextElement where
  textRun : Option TextRun

structure TextContent where
  textElements : Option (List TextElement)

structure Shape where
  text : Option TextContent

structure TableCell where
  text : Option TextContent

structure TableRow where
  tableCells : Option (List TableCell)

structure Table where
  tableRows : Option (List TableRow)

/-- A page element is inspected for a `shape` and, independently, for a
`table`; other element kinds carry neither. -/
structure PageElement where
  shape : Option Shape
  table : Option Table

structure NotesPage where
  pageElements : Option (List PageElement)

structure SlideProperties where
  notesPage : Option NotesPage

structure Slide where
  objectId : Option String
  pageElements : Option (List PageElement)
  slideProperties : Option SlideProperties

structure Presentation where
  title : Option String
  revisionId : Option String
  slides : Option (List Slide)

/-- ASCII whitespace, covering the characters occurring in the data this
server handles; used to model `String.prototype.trim()`. -/
def isWsChar (c : Char) : Bool :=
  c == ' ' || c == '\t' || c == '\n' || c == '\r'

/-- `String.prototype.trim()`. -/
def jsTrim (s : String) : String :=
  String.mk (((s.data.dropWhile isWsChar).reverse.dropWhile isWsChar).reverse)

/-- JavaScript `a || d` on an optional string: the default is used when
the string is absent or empty (falsy). -/
def jsOr (o : Option String) (d : String) : String :=
  match o with
  | some s => if s = "" then d else s
  | none => d

/-! ## The summarize text-extraction walk
(`summarizePresentation` in the `GoogleSlidesServer` class, src/schemas.ts) -/

/-- The texts pushed for one text-element list: for each element whose
`textRun` and `textRun.content` are both truthy (so an empty-string
content is skipped), the trimmed content. -/
def runTexts (tes : List TextElement) : List String :=
  tes.flatMap (fun te =>
    match te.textRun with
    | some tr =>
      match tr.content with
      | some c => if c ≠ "" then [jsTrim c] else []
      | none => []
    | none => [])

/-- Guards `x.text && x.text.textElements` before walking the runs. -/
def contentTexts (tc : Option TextContent) : List String :=
  match tc with
  | some t =>
    match t.textElements with
    | some tes => runTexts tes
    | none => []
  | none => []

/-- Texts contributed by `element.shape`, when present. -/
def shapeTexts (e : PageElement) : List String :=
  match e.shape with
  | some sh => contentTexts sh.text
  | none => []

def cellTexts (c : TableCell) : List String :=
  contentTexts c.text

def rowTexts (r : TableRow) : List String :=
  match r.tableCells with
  | some cs => cs.flatMap cellTexts
  | none => []

/-- Texts contributed by `element.table`, when present: rows, then cells,
in order. -/
def tableTexts (e : PageElement) : List String :=
  match e.table with
  | some tb =>
    match tb.tableRows with
    | some rs => rs.flatMap rowTexts
    | none => []
  | none => []

/-- One page element pushes its shape texts and then its table texts. -/
def elementTexts (e : PageElement) : List String :=
  shapeTexts e ++ tableTexts e

/-- The `slideText` array accumulated over `slide.pageElements`. -/
def slideTexts (s : Slide) : List String :=
  match s.pageElements with
  | some pes => pes.flatMap elementTexts
  | none => []

/-- `slideText.filter(text => text.length > 0).join(' ')`. -/
def slideContent (s : Slide) : String :=
  joinSep " " ((slideTexts s).filter (fun t => t.length > 0))

/-- The trimmed texts of the notes page's shape elements (tables inside
notes are not walked). -/
def noteTexts (s : Slide) : List String :=
  match s.slideProperties with
  | some sp =>
    match sp.notesPage with
    | some np =>
      match np.pageElements with
      | some pes => pes.flatMap shapeTexts
      | none => []
    | none => []
  | none => []

/-- The `notes` string: `notes += content.trim() + ' '` per truthy run. -/
def noteAccum (s : Slide) : String :=
  (noteTexts s).foldl (fun acc t => acc ++ t ++ " ") ""

/-- JSON object lookup (`undefined` when the key is absent or the value is
not an object). -/
def jsonLookup (j : Json) (k : String) : Option Json :=
  match j with
  | .obj kvs => lookupField kvs k
  | _ => none

/-- The per-slide summary object. The `notes` key is spread in only when
notes were requested and the accumulated `notes` string is truthy
(non-empty before trimming): `...(includeNotes && notes ? { notes:
notes.trim() } : {})`. -/
def slideSummaryJson (includeNotes : Bool) (idx : Nat) (s : Slide) : Json :=
  let notes := if includeNotes then noteAccum s else ""
  .obj ([("slideNumber", .num ((idx : Int) + 1)),
    ("slideId", .str (jsOr s.objectId ("slide_" ++ toString (idx + 1)))),
    ("content", .str (slideContent s))] ++
    (if includeNotes && notes ≠ "" then [("notes", .str (jsTrim notes))] else []))

/-- `presentation.revisionId ? 'Revision <id>' : 'Unknown'`. -/
def revisionText : Option String → String
| some r => if r = "" then "Unknown" else "Revision " ++ r
| none => "Unknown"

/-- The zero-slide summary payload: `{ title, slideCount: 0, summary }`. -/
def noSlidesPayload (p : Presentation) : Json :=
  .obj [("title", .str (jsOr p.title "Untitled Presentation")),
    ("slideCount", .num 0),
    ("summary", .str "This presentation contains no slides.")]

/-- The general summary payload: `{ title, slideCount, lastModified,
slides }`. -/
def summaryPayload (includeNotes : Bool) (p : Presentation) (ss : List Slide) : Json :=
  .obj [("title", .str (jsOr p.title "Untitled Presentation")),
    ("slideCount", .num ss.length),
    ("lastModified", .str (revisionText p.revisionId)),
    ("slides", .arr (ss.enum.map (fun pr => slideSummaryJson includeNotes pr.1 pr.2)))]

/-! ## Remote failure values and the tool implementation methods -/

/-- A value with which the awaited Google API call rejects.
`withResponse` models a value carrying a `response` property: `nested` is
`response?.data?.error?.message` when that path is present, `errMsg` is
the value's own `.message` when it is also an `Error` instance, and
`strRep` is its `String(...)` rendering. `jsError` is a plain `Error`,
`strVal` a raw string, and `otherVal` any other value (null, numbers,
plain objects), tagged for distinguishability. -/
inductive GoogleError where
| withResponse (nested : Option String) (errMsg : Option String) (strRep : String) : GoogleError
| jsError (msg : String) : GoogleError
| strVal (s : String) : GoogleError
| otherVal (tag : Nat) : GoogleError

/-- The catch clause shared by the `GoogleSlidesServer` tool methods:
`response?.data?.error?.message || (error instanceof Error ? error.message
: String(error))` when the value has a `response` property, else the
`Error` message, else the default "Unknown Google API error" (raw strings
and other values both keep the default). -/
def classifyGoogleError : GoogleError → String
| .withResponse nested errMsg strRep =>
  match nested with
  | some m =>
    if m ≠ "" then m
    else match errMsg with
      | some em => em
      | none => strRep
  | none =>
    match errMsg with
    | some em => em
    | none => strRep
| .jsError m => m
| .strVal _ => "Unknown Google API error"
| .otherVal _ => "Unknown Google API error"

/-- `createPresentation`: a successful remote call yields the stringified
response payload; a rejected one throws
`McpError(InternalError, 'Google API Error: <message>')`. -/
def createPresentation (remote : Except GoogleError Json) : Except ToolError Envelope :=
  match remote with
  | .ok data => .ok (mkSuccess (.jsonOf data))
  | .error e => .error (.mcpE .internalError ("Google API Error: " ++ classifyGoogleError e))

/-- `getPresentation`: same success and failure shape as
`createPresentation`. -/
def getPresentation (remote : Except GoogleError Json) : Except ToolError Envelope :=
  match remote with
  | .ok data => .ok (mkSuccess (.jsonOf data))
  | .error e => .error (.mcpE .internalError ("Google API Error: " ++ classifyGoogleError e))

/-- `batchUpdatePresentation`: same success and failure shape. -/
def batchUpdatePresentation (remote : Except GoogleError Json) : Except ToolError Envelope :=
  match remote with
  | .ok data => .ok (mkSuccess (.jsonOf data))
  | .error e => .error (.mcpE .internalError ("Google API Error: " ++ classifyGoogleError e))

/-- `getPage`: same success and failure shape. -/
def getPage (remote : Except GoogleError Json) : Except ToolError Envelope :=
  match remote with
  | .ok data => .ok (mkSuccess (.jsonOf data))
  | .error e => .error (.mcpE .internalError ("Google API Error: " ++ classifyGoogleError e))

/-- `summarizePresentation`: `includeNotes := args.include_notes === true`;
a rejected remote call is wrapped like the other tools; an empty or absent
slide list degenerates to the zero-slide payload; otherwise each slide is
summarized in document order. -/
def summarizePresentation (include_notes : Option Bool)
    (remote : Except GoogleError Presentation) : Except ToolError Envelope :=
  let includeNotes := match include_notes with
    | some true => true
    | _ => false
  match remote with
  | .error e => .error (.mcpE .internalError ("Google API Error: " ++ classifyGoogleError e))
  | .ok p =>
    match p.slides with
    | none => .ok (mkSuccess (.jsonOf (noSlidesPayload p)))
    | some [] => .ok (mkSuccess (.jsonOf (noSlidesPayload p)))
    | some ss => .ok (mkSuccess (.jsonOf (summaryPayload includeNotes p ss)))

/-- Reads the parsed `include_notes` argument back out of the validated
argument object when wiring `summarizePresentation` behind `executeTool`. -/
def jsonBoolField (j : Json) (k : String) : Option Bool :=
  match jsonLookup j k with
  | some (.bool b) => some b
  | _ => none

/-- Modelled from the spec: the Remote Error Normalizer of §4.4
(`handleGoogleApiError` in src/utils/errorHandler.ts, whose implementation
file is not in the tree — only its test suite is). Detail resolution
follows the §4.4 priority order: nested `response/data/error/message`
field, else the exception-like value's message, else the string verbatim,
else a fixed fallback. The message literals follow the repository's
errorHandler tests, which fix the prefix `Google API Error in
<operationName>: <detail>` and the fallback "Unknown Google API error"
(where the spec text instead says "Remote API Error in ..." and "Unknown
Remote API error"). -/
def googleDetail : GoogleError → String
| .withResponse nested errMsg _ =>
  (match nested with
  | some m => m
  | none =>
    match errMsg with
    | some em => em
    | none => "Unknown Google API error")
| .jsError m => m
| .strVal s => s
| .otherVal _ => "Unknown Google API error"

/-- Modelled from the spec: `handleGoogleApiError(rawError, operationName)`
returns the structured error the tool functions throw; see `googleDetail`
for the provenance of the message literals. -/
def handleGoogleApiError (e : GoogleError) (opName : String) : ToolError :=
  .mcpE .internalError ("Google API Error in " ++ opName ++ ": " ++ googleDetail e)

/-- Modelled from the spec: a tool function of §4.3 (src/tools/*.ts are
not in the tree — only their test suites are). On success it returns the
stringified remote payload; a rejected remote call throws the structured
error built by `handleGoogleApiError`, which `executeTool` passes
through. -/
def googleTool (opName : String) (remote : Except GoogleError Json) : Except ToolError Envelope :=
  match remote with
  | .ok data => .ok (mkSuccess (.jsonOf data))
  | .error e => .error (handleGoogleApiError e opName)

/-- The message of a single-text-block envelope. -/
def envMessage (e : Envelope) : String :=
  match e.content with
  | [.text (.plain s)] => s
  | _ => ""

/-! ## Claim-side restatement of the content extraction

The specification describes a slide's `content` as: the sequence of text
run strings (those with a content value) collected from shape and table
elements in document order, each trimmed, filtered to the strings that are
non-empty after trimming, joined with a single space. The following `raw*`
definitions collect the untrimmed run strings along the same walk; they
exist to be compared with the source-side walk above. -/

def rawRunTexts (tes : List TextElement) : List String :=
  tes.flatMap (fun te =>
    match te.textRun with
    | some tr =>
      match tr.content with
      | some c => [c]
      | none => []
    | none => [])

def rawContentTexts (tc : Option TextContent) : List String :=
  match tc with
  | some t =>
    match t.textElements with
    | some tes => rawRunTexts tes
    | none => []
  | none => []

def rawShapeTexts (e : PageElement) : List String :=
  match e.shape with
  | some sh => rawContentTexts sh.text
  | none => []

def rawCellTexts (c : TableCell) : List String :=
  rawContentTexts c.text

def rawRowTexts (r : TableRow) : List String :=
  match r.tableCells with
  | some cs => cs.flatMap rawCellTexts
  | none => []

def rawTableTexts (e : PageElement) : List String :=
  match e.table with
  | some tb =>
    match tb.tableRows with
    | some rs => rs.flatMap rawRowTexts
    | none => []
  | none => []

def rawElementTexts (e : PageElement) : List String :=
  rawShapeTexts e ++ rawTableTexts e

def rawSlideTexts (s : Slide) : List String :=
  match s.pageElements with
  | some pes => pes.flatMap rawElementTexts
  | none => []

/-- The claim-side content of a slide: trim every collected run, keep the
non-empty ones, join with a single space. -/
def specSlideContent (s : Slide) : String :=
  joinSep " " (((rawSlideTexts s).map jsTrim).filter (fun t => t ≠ ""))

/-! ## The envelope invariant -/

/-- The Result Envelope invariant: `isError` and `errorCode` are both
absent on success, and on failure `isError` is `true` and `errorCode` is
present and drawn from the fixed error-code enumeration. -/
def envInv (e : Envelope) : Prop :=
  (e.isError = none ∧ e.errorCode = none) ∨
  (e.isError = some true ∧ ∃ c, e.errorCode = some c ∧ c ∈ errorCodeEnum)

/-- The keys of a JSON object value. -/
def jsonKeys : Json → List String
| .obj kvs => kvs.map Prod.fst
| _ => []

/-! ## Concrete fixtures used by individual claims -/

/-- Valid get_page arguments, used to exercise the remote-failure path. -/
def c6Args : Json :=
  .obj [("presentationId", .str "private-presentation"), ("pageObjectId", .str "slide-1")]

/-- The envelope produced when the remote get_page call rejects with an
`Error` whose message is "Permission denied". -/
def c6Env : Envelope :=
  executeTool "get_page" (some c6Args) GetPageArgsSchema
    (fun _ => googleTool "get_page" (.error (.jsError "Permission denied")))

/-- A shape-only page element holding the given text runs. -/
def mkShapeElement (runs : List (Option String)) : PageElement :=
  { shape := some { text := some { textElements := some (runs.map (fun c => { textRun := some { content := c } })) } },
    table := none }

/-- A slide with one content shape and a notes page whose single text run
is whitespace-only. -/
def c7Slide : Slide :=
  { objectId := some "slide-1",
    pageElements := some [mkShapeElement [some "Content"]],
    slideProperties := some { notesPage := some { pageElements := some [mkShapeElement [some "   "]] } } }

def c7Pres : Presentation :=
  { title := some "Test", revisionId := none, slides := some [c7Slide] }

/-- A slide whose text runs are "Real Content", a whitespace-only run, an
empty-string run, and a run with no content value. -/
def c8Slide : Slide :=
  { objectId := some "slide-1",
    pageElements := some [mkShapeElement [some "Real Content", some "   ", some "", none]],
    slideProperties := none }

/-- A presentation with an empty slide list. -/
def c9Pres : Presentation :=
  { title := some "Empty Presentation", revisionId := none, slides := some [] }

/-! ## Helper lemmas -/

theorem listPrefixB_iff (pre l : List Char) :
    listPrefixB pre l = true ↔ ∃ q, l = pre ++ q := by
  induction pre generalizing l with
  | nil => simp [listPrefixB]
  | cons a as ih =>
    cases l with
    | nil =>
      simp [listPrefixB]
    | cons b bs =>
      simp only [listPrefixB, Bool.and_eq_true, beq_iff_eq, ih, List.cons_append,
        List.cons.injEq]
      constructor
      · rintro ⟨rfl, q, rfl⟩
        exact ⟨q, rfl, rfl⟩
      · rintro ⟨q, rfl, rfl⟩
        exact ⟨rfl, q, rfl⟩

theorem listHasB_iff (sub l : List Char) :
    listHasB sub l = true ↔ ∃ p q, l = p ++ sub ++ q := by
  induction l with
  | nil =>
    simp only [listHasB, listPrefixB_iff]
    constructor
    · rintro ⟨q, hq⟩
      exact ⟨[], q, by simpa using hq⟩
    · rintro ⟨p, q, hpq⟩
      have hp : p = [] := by
        cases p with
        | nil => rfl
        | cons x xs => simp at hpq
      subst hp
      exact ⟨q, by simpa using hpq⟩
  | cons a t ih =>
    simp only [listHasB, Bool.or_eq_true, listPrefixB_iff, ih]
    constructor
    · rintro (⟨q, hq⟩ | ⟨p, q, hq⟩)
      · exact ⟨[], q, by simpa using hq⟩
      · exact ⟨a :: p, q, by simp [hq]⟩
    · rintro ⟨p, q, hq⟩
      cases p with
      | nil =>
        left
        exact ⟨q, by simpa using hq⟩
      | cons x xs =>
        right
        simp only [List.cons_append, List.cons.injEq] at hq
        exact ⟨xs, q, hq.2⟩

theorem strHas_iff_strHasB (m sub : String) :
    strHas m sub ↔ strHasB m sub = true := by
  unfold strHas strHasB
  rw [listHasB_iff]

theorem strHas_refl (s : String) : strHas s s :=
  ⟨[], [], by simp⟩

theorem strLength_zero_iff (t : String) : t.length = 0 ↔ t = "" := by
  constructor
  · intro h
    cases t with
    | mk data =>
      have hd : data = [] := by simpa [String.length] using h
      subst hd
      rfl
  · intro h
    subst h
    rfl

theorem filter_len_eq_ne (l : List String) :
    l.filter (fun t => t.length > 0) = l.filter (fun t => t ≠ "") := by
  apply List.filter_congr
  intro t _
  rw [decide_eq_decide]
  constructor
  · intro h heq
    rw [heq] at h
    exact absurd h (by decide)
  · intro h
    rcases Nat.eq_zero_or_pos t.length with h0 | hpos
    · exact absurd ((strLength_zero_iff t).mp h0) h
    · exact hpos

theorem runTexts_filter (tes : List TextElement) :
    (runTexts tes).filter (fun t => t ≠ "") =
    ((rawRunTexts tes).map jsTrim).filter (fun t => t ≠ "") := by
  induction tes with
  | nil => rfl
  | cons te rest ih =>
    unfold runTexts rawRunTexts
    rw [List.flatMap_cons, List.flatMap_cons, List.map_append, List.filter_append,
      List.filter_append]
    have hrest : (rest.flatMap (fun te =>
        match te.textRun with
        | some tr =>
          match tr.content with
          | some c => if c ≠ "" then [jsTrim c] else []
          | none => []
        | none => [])).filter (fun t => t ≠ "") =
        ((rest.flatMap (fun te =>
          match te.textRun with
          | some tr =>
            match tr.content with
            | some c => [c]
            | none => []
          | none => [])).map jsTrim).filter (fun t => t ≠ "") := ih
    rw [hrest]
    congr 1
    cases te with
    | mk run =>
      cases run with
      | none => rfl
      | some tr =>
        cases tr with
        | mk cnt =>
          cases cnt with
          | none => rfl
          | some c =>
            by_cases hc : c = ""
            · subst hc
              rfl
            · simp [hc]

theorem filter_flatMap_trim {α : Type} (l : List α) (f g : α → List String)
    (h : ∀ a, (f a).filter (fun t => t ≠ "") = ((g a).map jsTrim).filter (fun t => t ≠ "")) :
    (l.flatMap f).filter (fun t => t ≠ "") =
    ((l.flatMap g).map jsTrim).filter (fun t => t ≠ "") := by
  induction l with
  | nil => rfl
  | cons a rest ih =>
    rw [List.flatMap_cons, List.flatMap_cons, List.map_append, List.filter_append,
      List.filter_append, h a, ih]

theorem contentTexts_filter (tc : Option TextContent) :
    (contentTexts tc).filter (fun t => t ≠ "") =
    ((rawContentTexts tc).map jsTrim).filter (fun t => t ≠ "") := by
  cases tc with
  | none => rfl
  | some t =>
    cases t with
    | mk tes =>
      cases tes with
      | none => rfl
      | some l => exact runTexts_filter l

theorem shapeTexts_filter (e : PageElement) :
    (shapeTexts e).filter (fun t => t ≠ "") =
    ((rawShapeTexts e).map jsTrim).filter (fun t => t ≠ "") := by
  cases e with
  | mk shp tbl =>
    cases shp with
    | none => rfl
    | some sh => exact contentTexts_filter sh.text

theorem rowTexts_filter (r : TableRow) :
    (rowTexts r).filter (fun t => t ≠ "") =
    ((rawRowTexts r).map jsTrim).filter (fun t => t ≠ "") := by
  cases r with
  | mk cs =>
    cases cs with
    | none => rfl
    | some l =>
      exact filter_flatMap_trim l cellTexts rawCellTexts fun c => contentTexts_filter c.text

theorem tableTexts_filter (e : PageElement) :
    (tableTexts e).filter (fun t => t ≠ "") =
    ((rawTableTexts e).map jsTrim).filter (fun t => t ≠ "") := by
  cases e with
  | mk shp tbl =>
    cases tbl with
    | none => rfl
    | some tb =>
      cases tb with
      | mk rs =>
        cases rs with
        | none => rfl
        | some l => exact filter_flatMap_trim l rowTexts rawRowTexts rowTexts_filter

theorem elementTexts_filter (e : PageElement) :
    (elementTexts e).filter (fun t => t ≠ "") =
    ((rawElementTexts e).map jsTrim).filter (fun t => t ≠ "") := by
  unfold elementTexts rawElementTexts
  rw [List.map_append, List.filter_append, List.filter_append,
    shapeTexts_filter e, tableTexts_filter e]

theorem slideTexts_filter (s : Slide) :
    (slideTexts s).filter (fun t => t ≠ "") =
    ((rawSlideTexts s).map jsTrim).filter (fun t => t ≠ "") := by
  unfold slideTexts rawSlideTexts
  cases s.pageElements with
  | none => rfl
  | some pes => exact filter_flatMap_trim pes elementTexts rawElementTexts elementTexts_filter

theorem slideContent_eq_spec (s : Slide) : slideContent s = specSlideContent s := by
  unfold slideContent specSlideContent
  rw [filter_len_eq_ne, slideTexts_filter s]

theorem strHas_append_left (l m sub : String) (h : strHas m sub) : strHas (l ++ m) sub := by
  obtain ⟨p, q, hp⟩ := h
  exact ⟨l.data ++ p, q, by simp [String.data_append, hp]⟩

theorem strHas_append_right (m r sub : String) (h : strHas m sub) : strHas (m ++ r) sub := by
  obtain ⟨p, q, hp⟩ := h
  exact ⟨p, q ++ r.data, by simp [String.data_append, hp]⟩

theorem strHas_trans (a b c : String) (h1 : strHas a b) (h2 : strHas b c) : strHas a c := by
  obtain ⟨p, q, hp⟩ := h1
  obtain ⟨r, s', hr⟩ := h2
  exact ⟨p ++ r, s' ++ q, by simp [hp, hr]⟩

theorem strHas_fmtIssue (i : ZodIssue) : strHas (fmtIssue i) (joinSep "." i.path) :=
  ⟨[], (": " ++ i.message).data, by simp [fmtIssue, String.data_append]⟩

theorem strHas_joinSep_mem (sep : String) (l : List String) (x : String) (h : x ∈ l) :
    strHas (joinSep sep l) x := by
  induction l with
  | nil => cases h
  | cons a rest ih =>
    rcases List.mem_cons.mp h with h1 | h2
    · subst h1
      cases rest with
      | nil => exact strHas_refl x
      | cons b bs =>
        exact ⟨[], sep.data ++ (joinSep sep (b :: bs)).data, by
          simp [joinSep, String.data_append]⟩
    · have hne : rest ≠ [] := by
        intro hr
        rw [hr] at h2
        cases h2
      cases rest with
      | nil => exact absurd rfl hne
      | cons b bs =>
        show strHas (a ++ sep ++ joinSep sep (b :: bs)) x
        exact strHas_append_left (a ++ sep) (joinSep sep (b :: bs)) x (ih h2)



theorem errorCode_mem_enum (c : ErrorCode) : c ∈ errorCodeEnum := by
  cases c <;> simp [errorCodeEnum]

/-- Every envelope `executeTool` produces satisfies the invariant, provided
the tool function's own success envelopes leave both fields absent. -/
theorem envInv_executeTool {T : Type} (toolName : String) (args : Option Json)
    (schema : Json → Except ZodError T) (toolFn : T → Except ToolError Envelope)
    (hf : ∀ t env, toolFn t = .ok env → env.isError = none ∧ env.errorCode = none) :
    envInv (executeTool toolName args schema toolFn) := by
  unfold executeTool tryBody
  cases args with
  | none =>
    right
    exact ⟨rfl, .invalidParams, rfl, errorCode_mem_enum _⟩
  | some a =>
    cases hs : schema a with
    | error ze =>
      simp only [hs]
      right
      exact ⟨rfl, .invalidParams, rfl, errorCode_mem_enum _⟩
    | ok t =>
      simp only [hs]
      cases hft : toolFn t with
      | ok env =>
        simp only [hft]
        left
        exact hf t env hft
      | error e =>
        simp only [hft]
        cases e with
        | mcpE c m =>
          right
          exact ⟨rfl, c, rfl, errorCode_mem_enum c⟩
        | jsError m =>
          right
          exact ⟨rfl, .internalError, rfl, errorCode_mem_enum _⟩
        | strVal s =>
          right
          exact ⟨rfl, .internalError, rfl, errorCode_mem_enum _⟩
        | otherVal k =>
          right
          exact ⟨rfl, .internalError, rfl, errorCode_mem_enum _⟩

/-! ## Claim theorems: execution pipeline -/

/-- C1: for every tool name, every raw argument value (including the
undefined sentinel and malformed values), every schema, and every tool
function (including ones that throw an arbitrary value), `executeTool`
never raises: the outcome its caller observes is always `Except.ok` of a
result envelope, never an escaping thrown value. -/
theorem executeTool_never_raises {T : Type} (toolName : String) (args : Option Json)
    (schema : Json → Except ZodError T) (toolFn : T → Except ToolError Envelope) :
    executeToolRaw toolName args schema toolFn =
      .ok (executeTool toolName args schema toolFn) := by
  unfold executeToolRaw executeTool
  cases tryBody toolName args schema toolFn with
  | ok env => rfl
  | error t => rfl

/-- C2: every envelope produced by invoking one of the five tools through
`executeTool` — for any raw arguments and any remote-call outcome —
satisfies the envelope invariant: `isError` and `errorCode` both absent on
success, both present on failure with the code drawn from the fixed
enumeration. -/
theorem toolInvocation_envelope_invariant (args : Option Json)
    (r1 r2 r3 r4 : Except GoogleError Json) (r5 : Except GoogleError Presentation) :
    envInv (executeTool "create_presentation" args CreatePresentationArgsSchema
      (fun _ => createPresentation r1)) ∧
    envInv (executeTool "get_presentation" args GetPresentationArgsSchema
      (fun _ => getPresentation r2)) ∧
    envInv (executeTool "batch_update_presentation" args BatchUpdatePresentationArgsSchema
      (fun _ => batchUpdatePresentation r3)) ∧
    envInv (executeTool "get_page" args GetPageArgsSchema
      (fun _ => getPage r4)) ∧
    envInv (executeTool "summarize_presentation" args SummarizePresentationArgsSchema
      (fun pa => summarizePresentation (jsonBoolField pa "include_notes") r5)) := by
  refine ⟨?_, ?_, ?_, ?_, ?_⟩ <;> apply envInv_executeTool
  · intro t env h
    cases r1 with
    | ok d =>
      simp [createPresentation, mkSuccess] at h
      subst h
      exact ⟨rfl, rfl⟩
    | error e => simp [createPresentation] at h
  · intro t env h
    cases r2 with
    | ok d =>
      simp [getPresentation, mkSuccess] at h
      subst h
      exact ⟨rfl, rfl⟩
    | error e => simp [getPresentation] at h
  · intro t env h
    cases r3 with
    | ok d =>
      simp [batchUpdatePresentation, mkSuccess] at h
      subst h
      exact ⟨rfl, rfl⟩
    | error e => simp [batchUpdatePresentation] at h
  · intro t env h
    cases r4 with
    | ok d =>
      simp [getPage, mkSuccess] at h
      subst h
      exact ⟨rfl, rfl⟩
    | error e => simp [getPage] at h
  · intro t env h
    cases r5 with
    | ok p =>
      rcases p with ⟨ti, rev, sl⟩
      cases sl with
      | none =>
        simp [summarizePresentation, mkSuccess] at h
        subst h
        exact ⟨rfl, rfl⟩
      | some l =>
        cases l with
        | nil =>
          simp [summarizePresentation, mkSuccess] at h
          subst h
          exact ⟨rfl, rfl⟩
        | cons s ss =>
          simp [summarizePresentation, mkSuccess] at h
          subst h
          exact ⟨rfl, rfl⟩
    | error e => simp [summarizePresentation] at h

/-- C3: for every tool name, schema and tool function, calling
`executeTool` with the absent/undefined argument sentinel yields the
InvalidParams failure envelope whose message contains
`Missing arguments for tool "<toolName>".`, and the tool function is never
invoked (the result is the same for every tool function). -/
theorem executeTool_missing_args {T : Type} (toolName : String)
    (schema : Json → Except ZodError T) (toolFn : T → Except ToolError Envelope) :
    executeTool toolName none schema toolFn =
      { content := [.text (.plain ("Missing arguments for tool \"" ++ toolName ++ "\"."))],
        isError := some true,
        errorCode := some .invalidParams } ∧
    strHas (envMessage (executeTool toolName none schema toolFn))
      ("Missing arguments for tool \"" ++ toolName ++ "\".") ∧
    (∀ g : T → Except ToolError Envelope,
      executeTool toolName none schema toolFn = executeTool toolName none schema g) := by
  refine ⟨rfl, ?_, fun g => rfl⟩
  exact strHas_refl ("Missing arguments for tool \"" ++ toolName ++ "\".")

/-- C4: for every tool name, schema, tool function, and present raw
arguments that fail validation, `executeTool` yields the InvalidParams
failure envelope whose message is `Invalid arguments for tool
"<toolName>": ` followed by the `<path>: <reason>` entries joined by
`; ` — so every violated field's path appears in the message — and the
tool function is never invoked. -/
theorem executeTool_invalid_args {T : Type} (toolName : String)
    (schema : Json → Except ZodError T) (a : Json) (ze : ZodError)
    (toolFn : T → Except ToolError Envelope)
    (h : schema a = .error ze) :
    executeTool toolName (some a) schema toolFn =
      { content := [.text (.plain ("Invalid arguments for tool \"" ++ toolName ++ "\": " ++
          joinSep "; " (ze.map fmtIssue)))],
        isError := some true,
        errorCode := some .invalidParams } ∧
    (∀ i ∈ ze, strHas ("Invalid arguments for tool \"" ++ toolName ++ "\": " ++
        joinSep "; " (ze.map fmtIssue)) (joinSep "." i.path)) ∧
    (∀ g : T → Except ToolError Envelope,
      executeTool toolName (some a) schema toolFn = executeTool toolName (some a) schema g) := by
  have hexec : ∀ g : T → Except ToolError Envelope,
      executeTool toolName (some a) schema g =
      { content := [.text (.plain ("Invalid arguments for tool \"" ++ toolName ++ "\": " ++
          joinSep "; " (ze.map fmtIssue)))],
        isError := some true,
        errorCode := some .invalidParams } := by
    intro g
    unfold executeTool tryBody
    simp only [h]
    rfl
  refine ⟨hexec toolFn, ?_, fun g => (hexec toolFn).trans (hexec g).symm⟩
  intro i hi
  apply strHas_append_left
  exact strHas_trans _ _ _
    (strHas_joinSep_mem "; " (ze.map fmtIssue) (fmtIssue i) (List.mem_map_of_mem fmtIssue hi))
    (strHas_fmtIssue i)

/-- C4 witness: the get_page schema applied to an empty object reports
both missing fields, and the pipeline formats both paths into one
InvalidParams message. -/
theorem executeTool_invalid_args_witness :
    GetPageArgsSchema (Json.obj []) =
      .error [ZodIssue.mk ["presentationId"] "Required", ZodIssue.mk ["pageObjectId"] "Required"] ∧
    (executeTool "get_page" (some (Json.obj [])) GetPageArgsSchema
        (fun _ => getPage (.ok Json.null)) =
      { content := [.text (.plain ("Invalid arguments for tool \"get_page\": " ++
          joinSep "; " (([ZodIssue.mk ["presentationId"] "Required",
            ZodIssue.mk ["pageObjectId"] "Required"] : ZodError).map fmtIssue)))],
        isError := some true,
        errorCode := some .invalidParams } ∧
      (∀ i ∈ ([ZodIssue.mk ["presentationId"] "Required",
          ZodIssue.mk ["pageObjectId"] "Required"] : ZodError),
        strHas ("Invalid arguments for tool \"get_page\": " ++
          joinSep "; " (([ZodIssue.mk ["presentationId"] "Required",
            ZodIssue.mk ["pageObjectId"] "Required"] : ZodError).map fmtIssue))
          (joinSep "." i.path)) ∧
      (∀ g : Json → Except ToolError Envelope,
        executeTool "get_page" (some (Json.obj [])) GetPageArgsSchema
          (fun _ => getPage (.ok Json.null)) =
        executeTool "get_page" (some (Json.obj [])) GetPageArgsSchema g)) :=
  ⟨rfl, executeTool_invalid_args "get_page" GetPageArgsSchema (Json.obj [])
    [ZodIssue.mk ["presentationId"] "Required", ZodIssue.mk ["pageObjectId"] "Required"]
    (fun _ => getPage (.ok Json.null)) rfl⟩

/-- C5: for every tool function failure after successful validation: a
thrown structured code/message pair is preserved exactly; otherwise the
envelope is InternalError with message `Failed to execute tool
"<toolName>": <detail>`, where detail is the exception-like value's
message, the string value itself, or the literal "Unknown error" for any
other value. -/
theorem executeTool_tool_failure {T : Type} (toolName : String)
    (schema : Json → Except ZodError T) (a : Json) (t : T)
    (toolFn : T → Except ToolError Envelope) (e : ToolError)
    (hs : schema a = .ok t) (hf : toolFn t = .error e) :
    executeTool toolName (some a) schema toolFn =
      match e with
      | .mcpE c m =>
        { content := [.text (.plain m)], isError := some true, errorCode := some c }
      | .jsError m =>
        { content := [.text (.plain ("Failed to execute tool \"" ++ toolName ++ "\": " ++ m))],
          isError := some true, errorCode := some .internalError }
      | .strVal s =>
        { content := [.text (.plain ("Failed to execute tool \"" ++ toolName ++ "\": " ++ s))],
          isError := some true, errorCode := some .internalError }
      | .otherVal _ =>
        { content := [.text (.plain ("Failed to execute tool \"" ++ toolName ++ "\": " ++
            "Unknown error"))],
          isError := some true, errorCode := some .internalError } := by
  cases e <;> simp [executeTool, tryBody, hs, hf, catchHandler, extractErrorMessage]

/-- C5 witness: a tool function that throws a plain `Error` after
successful validation is wrapped as an InternalError with the error's
message. -/
theorem executeTool_tool_failure_witness :
    CreatePresentationArgsSchema (Json.obj [("title", Json.str "T")]) =
      .ok (Json.obj [("title", Json.str "T")]) ∧
    executeTool "test_tool" (some (Json.obj [("title", Json.str "T")]))
        CreatePresentationArgsSchema
        (fun _ => .error (.jsError "Something went wrong")) =
      { content := [.text (.plain ("Failed to execute tool \"test_tool\": " ++
          "Something went wrong"))],
        isError := some true, errorCode := some .internalError } :=
  ⟨rfl, executeTool_tool_failure "test_tool" CreatePresentationArgsSchema
    (Json.obj [("title", Json.str "T")]) (Json.obj [("title", Json.str "T")])
    (fun _ => .error (.jsError "Something went wrong")) (.jsError "Something went wrong")
    rfl rfl⟩

/-! ## Claim theorems: remote error normalization (C6) -/

/-- C6 (amended): for every operation name and every rejected remote call,
wiring the (spec-modelled) tool function behind `executeTool` with valid
arguments yields an InternalError failure envelope whose message contains
`Google API Error in <operationName>: <detail>`, with detail resolved in
priority order: nested response/data/error/message, else the
exception-like value's message, else the string verbatim, else the literal
"Unknown Google API error". -/
theorem googleApiError_normalization {T : Type} (opName toolName : String)
    (schema : Json → Except ZodError T) (a : Json) (t : T) (e : GoogleError)
    (hs : schema a = .ok t) :
    executeTool toolName (some a) schema (fun _ => googleTool opName (.error e)) =
      { content := [.text (.plain ("Google API Error in " ++ opName ++ ": " ++ googleDetail e))],
        isError := some true, errorCode := some .internalError } ∧
    strHas (envMessage (executeTool toolName (some a) schema
        (fun _ => googleTool opName (.error e))))
      ("Google API Error in " ++ opName ++ ": " ++ googleDetail e) ∧
    googleDetail e =
      (match e with
      | .withResponse (some m) _ _ => m
      | .withResponse none (some em) _ => em
      | .withResponse none none _ => "Unknown Google API error"
      | .jsError m => m
      | .strVal s => s
      | .otherVal _ => "Unknown Google API error") := by
  have h1 : executeTool toolName (some a) schema (fun _ => googleTool opName (.error e)) =
      { content := [.text (.plain ("Google API Error in " ++ opName ++ ": " ++ googleDetail e))],
        isError := some true, errorCode := some .internalError } := by
    simp [executeTool, tryBody, hs, googleTool, handleGoogleApiError, catchHandler]
  refine ⟨h1, ?_, ?_⟩
  · rw [h1]
    exact strHas_refl ("Google API Error in " ++ opName ++ ": " ++ googleDetail e)
  · cases e with
    | withResponse nested errMsg strRep =>
      cases nested with
      | some m => rfl
      | none =>
        cases errMsg with
        | some em => rfl
        | none => rfl
    | jsError m => rfl
    | strVal s => rfl
    | otherVal k => rfl

/-- C6 witness: the §8 example — a get_page call whose remote rejects with
an `Error` carrying "Permission denied". -/
theorem googleApiError_normalization_witness :
    GetPageArgsSchema c6Args = .ok (Json.obj [("presentationId", Json.str "private-presentation"),
      ("pageObjectId", Json.str "slide-1")]) ∧
    c6Env = { content := [.text (.plain "Google API Error in get_page: Permission denied")],
              isError := some true, errorCode := some .internalError } := by
  refine ⟨rfl, ?_⟩
  have h := googleApiError_normalization "get_page" "get_page" GetPageArgsSchema c6Args
    (Json.obj [("presentationId", Json.str "private-presentation"),
      ("pageObjectId", Json.str "slide-1")])
    (.jsError "Permission denied") rfl
  exact h.1

/-- C6 counterexample: at the §8 example input the envelope's message is
`Google API Error in get_page: Permission denied`; it does NOT contain the
`Remote API Error in get_page: Permission denied` literal asserted by the
claim. -/
theorem remote_api_error_prefix_counterexample :
    envMessage c6Env = "Google API Error in get_page: Permission denied" ∧
    c6Env.errorCode = some .internalError ∧
    ¬ strHas (envMessage c6Env) "Remote API Error in get_page: Permission denied" := by
  refine ⟨rfl, rfl, ?_⟩
  rw [strHas_iff_strHasB]
  decide

/-! ## Claim theorems: summarize (C7, C8, C9) -/

/-- C7: at a slide whose notes page holds a single whitespace-only text
run, with include_notes true, the source attaches a `notes` key whose
value is the empty string — because the pre-trim accumulation " " is
truthy — whereas the claim (and the repository's own summarize test)
require no `notes` key when the notes text trims to empty. -/
theorem summarize_whitespace_notes_divergence :
    summarizePresentation (some true) (.ok c7Pres) =
      .ok (mkSuccess (.jsonOf (Json.obj
        [("title", Json.str "Test"), ("slideCount", Json.num 1),
          ("lastModified", Json.str "Unknown"),
          ("slides", Json.arr [Json.obj
            [("slideNumber", Json.num 1), ("slideId", Json.str "slide-1"),
              ("content", Json.str "Content"), ("notes", Json.str "")]])]))) ∧
    jsonLookup (slideSummaryJson true 0 c7Slide) "notes" = some (Json.str "") :=
  ⟨rfl, rfl⟩

/-- C8: for every slide, the `content` field of its summary object equals
the claim-side extraction: the trimmed text-run strings of its shape and
table elements (rows then cells, in document order), filtered to the
non-empty-after-trim ones, joined with a single space; in particular the
runs ["Real Content", "   ", "", no-content] yield exactly
"Real Content". -/
theorem slide_content_matches_spec (includeNotes : Bool) (idx : Nat) (s : Slide) :
    jsonLookup (slideSummaryJson includeNotes idx s) "content" =
      some (Json.str (specSlideContent s)) ∧
    jsonLookup (slideSummaryJson false 0 c8Slide) "content" =
      some (Json.str "Real Content") := by
  constructor
  · show some (Json.str (slideContent s)) = some (Json.str (specSlideContent s))
    rw [slideContent_eq_spec]
  · rfl

/-- C9: for every presentation whose slide list is absent or empty,
summarize returns a success envelope whose payload is exactly
`{ title (defaulted to "Untitled Presentation" when absent),
slideCount: 0, summary: "This presentation contains no slides." }`,
with no `slides` key and no `lastModified` key. -/
theorem summarize_zero_slides (inc : Option Bool) (p : Presentation)
    (h : p.slides = none ∨ p.slides = some []) :
    summarizePresentation inc (.ok p) = .ok (mkSuccess (.jsonOf (noSlidesPayload p))) ∧
    noSlidesPayload p = Json.obj
      [("title", Json.str (jsOr p.title "Untitled Presentation")),
        ("slideCount", Json.num 0),
        ("summary", Json.str "This presentation contains no slides.")] ∧
    jsonLookup (noSlidesPayload p) "slides" = none ∧
    jsonLookup (noSlidesPayload p) "lastModified" = none := by
  refine ⟨?_, rfl, rfl, rfl⟩
  rcases h with h | h
  · simp [summarizePresentation, h]
  · simp [summarizePresentation, h]

/-- C9 witness: the §8 example — an empty slide list with title
"Empty Presentation". -/
theorem summarize_zero_slides_witness :
    (c9Pres.slides = none ∨ c9Pres.slides = some []) ∧
    (summarizePresentation none (.ok c9Pres) = .ok (mkSuccess (.jsonOf (noSlidesPayload c9Pres))) ∧
      noSlidesPayload c9Pres = Json.obj
        [("title", Json.str (jsOr c9Pres.title "Untitled Presentation")),
          ("slideCount", Json.num 0),
          ("summary", Json.str "This presentation contains no slides.")] ∧
      jsonLookup (noSlidesPayload c9Pres) "slides" = none ∧
      jsonLookup (noSlidesPayload c9Pres) "lastModified" = none) ∧
    noSlidesPayload c9Pres = Json.obj
      [("title", Json.str "Empty Presentation"), ("slideCount", Json.num 0),
        ("summary", Json.str "This presentation contains no slides.")] :=
  ⟨Or.inr rfl, summarize_zero_slides none c9Pres (Or.inr rfl), rfl⟩

/-! ## Claim theorems: unknown keys are stripped (C10) -/

theorem lookupField_eq_none (l : List (String × Json)) (n : String)
    (h : ∀ kv ∈ l, kv.1 ≠ n) : lookupField l n = none := by
  induction l with
  | nil => rfl
  | cons kv rest ih =>
    cases kv with
    | mk k v =>
      have hk : k ≠ n := h (k, v) (List.mem_cons_self _ _)
      simp only [lookupField, if_neg hk]
      exact ih (fun kv2 hm => h kv2 (List.mem_cons_of_mem _ hm))

theorem lookupField_append_of_not_mem (kvs extra : List (String × Json)) (n : String)
    (h : ∀ kv ∈ extra, kv.1 ≠ n) :
    lookupField (kvs ++ extra) n = lookupField kvs n := by
  induction kvs with
  | nil =>
    simp only [List.nil_append]
    exact lookupField_eq_none extra n h
  | cons kv rest ih =>
    cases kv with
    | mk k v =>
      rw [List.cons_append]
      show (if k = n then some v else lookupField (rest ++ extra) n) =
        (if k = n then some v else lookupField rest n)
      rw [ih]

theorem flatMap_congr_mem {α β : Type} (l : List α) (f g : α → List β)
    (h : ∀ a ∈ l, f a = g a) : l.flatMap f = l.flatMap g := by
  induction l with
  | nil => rfl
  | cons a rest ih =>
    rw [List.flatMap_cons, List.flatMap_cons, h a (List.mem_cons_self a rest),
      ih (fun x hx => h x (List.mem_cons_of_mem a hx))]

/-- Appending properties with undeclared keys changes neither the issue
list nor the stripped object. -/
theorem zodObjectParse_append_extra (fields : List (String × FieldType))
    (kvs extra : List (String × Json))
    (hextra : ∀ kv ∈ extra, kv.1 ∉ fields.map Prod.fst) :
    zodObjectParse fields (.obj (kvs ++ extra)) = zodObjectParse fields (.obj kvs) := by
  have hlk : ∀ nf ∈ fields, lookupField (kvs ++ extra) nf.1 = lookupField kvs nf.1 := by
    intro nf hnf
    apply lookupField_append_of_not_mem
    intro kv hkv heq
    exact hextra kv hkv (heq ▸ List.mem_map_of_mem Prod.fst hnf)
  have h1 : zodIssues fields (kvs ++ extra) = zodIssues fields kvs := by
    unfold zodIssues
    exact flatMap_congr_mem fields _ _ (fun nf hnf => by rw [hlk nf hnf])
  have h2 : zodStrip fields (kvs ++ extra) = zodStrip fields kvs := by
    unfold zodStrip
    exact flatMap_congr_mem fields _ _ (fun nf hnf => by rw [hlk nf hnf])
  unfold zodObjectParse
  simp only [h1, h2]

/-- Every key of the stripped object is a declared field name. -/
theorem zodStrip_keys (fields : List (String × FieldType)) (kvs : List (String × Json)) :
    ∀ k ∈ (zodStrip fields kvs).map Prod.fst, k ∈ fields.map Prod.fst := by
  intro k hk
  rw [List.mem_map] at hk
  obtain ⟨kv, hkv, rfl⟩ := hk
  unfold zodStrip at hkv
  rw [List.mem_flatMap] at hkv
  obtain ⟨nf, hnf, hmem⟩ := hkv
  rcases hp : parseField nf.2 (lookupField kvs nf.1) with m | ov
  · rw [hp] at hmem
    simp at hmem
  · rw [hp] at hmem
    cases ov with
    | none => simp at hmem
    | some v =>
      simp at hmem
      rw [hmem]
      exact List.mem_map_of_mem Prod.fst hnf

/-- C10: validating an object whose declared fields are valid but which
also carries extra, undeclared properties succeeds with the same parsed
value, the parsed value carries only schema-declared keys, and the
pipeline hands the tool function exactly that stripped value — the
invocation outcome is identical with and without the extra properties. -/
theorem zod_unknown_keys_stripped (fields : List (String × FieldType))
    (kvs extra : List (String × Json)) (r : Json)
    (hextra : ∀ kv ∈ extra, kv.1 ∉ fields.map Prod.fst)
    (hok : zodObjectParse fields (.obj kvs) = .ok r) :
    zodObjectParse fields (.obj (kvs ++ extra)) = .ok r ∧
    (∀ k ∈ jsonKeys r, k ∈ fields.map Prod.fst) ∧
    (∀ (toolName : String) (f : Json → Except ToolError Envelope),
      executeTool toolName (some (.obj (kvs ++ extra))) (zodObjectParse fields) f =
      executeTool toolName (some (.obj kvs)) (zodObjectParse fields) f) := by
  have heq := zodObjectParse_append_extra fields kvs extra hextra
  refine ⟨heq.trans hok, ?_, ?_⟩
  · rcases hzi : zodIssues fields kvs with _ | ⟨i, is⟩
    · simp only [zodObjectParse, hzi, Except.ok.injEq] at hok
      subst hok
      intro k hk
      exact zodStrip_keys fields kvs k hk
    · simp only [zodObjectParse, hzi] at hok
      exact absurd hok (by simp)
  · intro toolName f
    simp only [executeTool, tryBody, heq]

/-- C10 witness: valid create_presentation arguments carrying one unknown
extra property parse to the stripped `{ title }` object, and the
invocation outcome is unchanged by the extra property. -/
theorem zod_unknown_keys_stripped_witness :
    (∀ kv ∈ ([("unknown_extra", Json.num 1)] : List (String × Json)),
      kv.1 ∉ ([("title", FieldType.strMin1 "\"title\" (string) is required.")].map Prod.fst)) ∧
    zodObjectParse [("title", FieldType.strMin1 "\"title\" (string) is required.")]
        (.obj [("title", Json.str "My New Presentation")]) =
      .ok (.obj [("title", Json.str "My New Presentation")]) ∧
    (zodObjectParse [("title", FieldType.strMin1 "\"title\" (string) is required.")]
        (.obj ([("title", Json.str "My New Presentation")] ++ [("unknown_extra", Json.num 1)])) =
      .ok (.obj [("title", Json.str "My New Presentation")]) ∧
    (∀ k ∈ jsonKeys (.obj [("title", Json.str "My New Presentation")]),
      k ∈ ([("title", FieldType.strMin1 "\"title\" (string) is required.")].map Prod.fst)) ∧
    (∀ (toolName : String) (f : Json → Except ToolError Envelope),
      executeTool toolName
          (some (.obj ([("title", Json.str "My New Presentation")] ++
            [("unknown_extra", Json.num 1)])))
          (zodObjectParse [("title", FieldType.strMin1 "\"title\" (string) is required.")]) f =
      executeTool toolName (some (.obj [("title", Json.str "My New Presentation")]))
          (zodObjectParse [("title", FieldType.strMin1 "\"title\" (string) is required.")]) f)) := by
  have hex : ∀ kv ∈ ([("unknown_extra", Json.num 1)] : List (String × Json)),
      kv.1 ∉ ([("title", FieldType.strMin1 "\"title\" (string) is required.")].map Prod.fst) := by
    intro kv hkv
    simp only [List.mem_singleton] at hkv
    subst hkv
    simp
  exact ⟨hex, rfl, zod_unknown_keys_stripped
    [("title", FieldType.strMin1 "\"title\" (string) is required.")]
    [("title", Json.str "My New Presentation")] [("unknown_extra", Json.num 1)]
    (.obj [("title", Json.str "My New Presentation")]) hex rfl⟩
